import Mathlib

/-!
# Verification of the kubernetes-console tool (`main.go`)

A shallow embedding of the observable behaviour of `main.go`:

* the flat record type `DeploymentInfo` and the inventory collector
  `getDeploymentInfo` (the Kubernetes API objects it reads are modelled as
  plain Lean structures carrying exactly the fields the program touches;
  the client listing itself is an external collaborator, so the two listings
  are parameters);
* the pipe-delimited record codec (`writeCSV` producing the rows, a
  character-level encoder/decoder modelling `encoding/csv` with `Comma = '|'`
  in the regime where no field needs quoting);
* the patch flow `patchKubeResourcesFromCSV` (external `kubectl` invocations
  are modelled as argument vectors; their success or failure is an oracle
  `List String → Bool` supplied as a parameter);
* the restart trigger and the interactive `main` dispatch, with the
  externally visible actions of a run reified as a list of `Effect`s.

Go `int`/`int32`/`int64` values are modelled as `Int` (every arithmetic the
program performs on them — sums of per-container resource quantities, CSV
numeric fields — stays far below 2^63 for any input the API server can hand
out, so wrap-around is not modelled); a Go nil pointer is `Option.none`.
-/

namespace KubeConsole

/-! ## Data model: the Kubernetes objects the program reads -/

/-- The two resource quantities the program ever extracts from a container
resource list: `Cpu().MilliValue()` and `Memory().Value()` (bytes).
`none` models the entry being absent (Go then yields a zero `Quantity`). -/
structure ResourceList where
  cpuMilli : Option Int
  memoryBytes : Option Int
  deriving Repr, DecidableEq

/-- A container of the pod template: its resource requests and limits. -/
structure Container where
  requests : ResourceList
  limits : ResourceList
  deriving Repr, DecidableEq

/-- `RollingUpdateDeployment`: the two `IntOrString` fields, already rendered
through `.String()` as the program does. `none` models a nil pointer. -/
structure RollingUpdateSpec where
  maxUnavailable : Option String
  maxSurge : Option String
  deriving Repr, DecidableEq

/-- `DeploymentStrategy`: the strategy type tag and the optional
rolling-update sub-spec. -/
structure DeploymentStrategy where
  type : String
  rollingUpdate : Option RollingUpdateSpec
  deriving Repr, DecidableEq

/-- The fields of an `appsv1.Deployment` read by `getDeploymentInfo`. -/
structure Deployment where
  name : String
  nsp : String
  replicas : Option Int
  containers : List Container
  strategy : DeploymentStrategy
  deriving Repr, DecidableEq

/-- `MetricTarget`: the program only reads `AverageUtilization` (a nil-able
pointer). -/
structure MetricTarget where
  averageUtilization : Option Int
  deriving Repr, DecidableEq

/-- `ResourceMetricSource`: resource name and target. -/
structure ResourceMetricSource where
  name : String
  target : MetricTarget
  deriving Repr, DecidableEq

/-- `MetricSpec`: the metric type tag and the optional resource source. -/
structure MetricSpec where
  type : String
  resource : Option ResourceMetricSource
  deriving Repr, DecidableEq

/-- `HPAScalingRules`: only `StabilizationWindowSeconds` is read (nil-able). -/
structure ScalingRules where
  stabilizationWindowSeconds : Option Int
  deriving Repr, DecidableEq

/-- `HorizontalPodAutoscalerBehavior` with its two optional sides. -/
structure HPABehavior where
  scaleUp : Option ScalingRules
  scaleDown : Option ScalingRules
  deriving Repr, DecidableEq

/-- `CrossVersionObjectReference`: the scale target of an HPA. -/
structure ScaleTargetRef where
  name : String
  kind : String
  deriving Repr, DecidableEq

/-- The fields of an `autoscalingv2.HorizontalPodAutoscaler` the program
reads. -/
structure HPA where
  scaleTargetRef : ScaleTargetRef
  minReplicas : Option Int
  maxReplicas : Int
  metrics : List MetricSpec
  behavior : Option HPABehavior
  deriving Repr, DecidableEq

/-- The flat record type `DeploymentInfo` of `main.go` (field for field).
Pointer-typed fields (`*int32`) are `Option Int`. -/
structure DeploymentInfo where
  Name : String
  Namespace : String
  Replicas : Int
  MinReplicas : Int
  MaxReplicas : Int
  CPURequest : String
  CPULimit : String
  MemoryRequest : String
  MemoryLimit : String
  MaxUnavailable : String
  MaxSurge : String
  CPUTargetUtilization : Int
  ScaleUpStabilization : Option Int
  ScaleDownStabilization : Option Int
  UpdateResourceAndHPA : String
  UpdateHPAOnly : String
  deriving Repr, DecidableEq, Inhabited

/-! ## Inventory collector (`getDeploymentInfo`, lines 78-168) -/

/-- The accumulation loop over the pod template's containers (lines 103-109):
one pass adding `Requests.Cpu().MilliValue()`, `Limits.Cpu().MilliValue()`,
`Requests.Memory().Value() / (1024*1024)` and
`Limits.Memory().Value() / (1024*1024)` to the four running totals.  Go `/`
on integers truncates toward zero, hence `Int.tdiv`. An absent entry yields
a zero quantity, hence `Option.getD 0`. -/
def aggregate : List Container → Int × Int × Int × Int → Int × Int × Int × Int
  | [], acc => acc
  | c :: cs, acc =>
      aggregate cs
        (acc.1 + (c.requests.cpuMilli.getD 0),
         acc.2.1 + (c.limits.cpuMilli.getD 0),
         acc.2.2.1 + (c.requests.memoryBytes.getD 0).tdiv (1024 * 1024),
         acc.2.2.2 + (c.limits.memoryBytes.getD 0).tdiv (1024 * 1024))

/-- `maxUnavailable`/`maxSurge` extraction (lines 117-128): populated only
when the strategy type is `"RollingUpdate"`, the rolling-update sub-spec is
non-nil and the respective field is non-nil; the empty string otherwise
(the Go zero value of the struct field). -/
def strategyStrings (s : DeploymentStrategy) : String × String :=
  if s.type == "RollingUpdate" then
    match s.rollingUpdate with
    | some ru => (ru.maxUnavailable.getD "", ru.maxSurge.getD "")
    | none => ("", "")
  else ("", "")

/-- The HPA-to-Deployment match condition of line 132. -/
def hpaMatches (dname : String) (h : HPA) : Bool :=
  h.scaleTargetRef.name == dname && h.scaleTargetRef.kind == "Deployment"

/-- One step of the metric scan (lines 141-147): a `Resource`-typed metric
with a non-nil resource named `cpu` and a non-nil average utilization
overwrites the running value; anything else leaves it. -/
def cpuUtilStep (acc : Int) (m : MetricSpec) : Int :=
  if m.type == "Resource" then
    match m.resource with
    | none => acc
    | some r =>
        if r.name == "cpu" then
          match r.target.averageUtilization with
          | some u => u
          | none => acc
        else acc
  else acc

/-- The field updates applied once a matching HPA is found
(lines 133-160). -/
def applyMatchedHPA (info : DeploymentInfo) (h : HPA) : DeploymentInfo :=
  { info with
    MinReplicas := h.minReplicas.getD 1
    MaxReplicas := h.maxReplicas
    CPUTargetUtilization := h.metrics.foldl cpuUtilStep info.CPUTargetUtilization
    ScaleUpStabilization :=
      match h.behavior with
      | none => info.ScaleUpStabilization
      | some b =>
          match b.scaleUp with
          | none => info.ScaleUpStabilization
          | some su => su.stabilizationWindowSeconds
    ScaleDownStabilization :=
      match h.behavior with
      | none => info.ScaleDownStabilization
      | some b =>
          match b.scaleDown with
          | none => info.ScaleDownStabilization
          | some sd => sd.stabilizationWindowSeconds }

/-- The HPA scan of lines 131-163: first matching HPA is applied, then the
loop `break`s; no match leaves the record as built. -/
def applyHPAList (dname : String) (info : DeploymentInfo) : List HPA → DeploymentInfo
  | [] => info
  | h :: rest =>
      if hpaMatches dname h then applyMatchedHPA info h
      else applyHPAList dname info rest

/-- The per-Deployment body of the collection loop (lines 94-165).
`none` models the nil-pointer dereference panic of line 98
(`info.Replicas = *deploy.Spec.Replicas`) when `Spec.Replicas` is nil. -/
def collectDeployment (hpas : List HPA) (d : Deployment) : Option DeploymentInfo :=
  match d.replicas with
  | none => none
  | some r =>
      let agg := aggregate d.containers (0, 0, 0, 0)
      let strat := strategyStrings d.strategy
      let info : DeploymentInfo :=
        { Name := d.name
          Namespace := d.nsp
          Replicas := r
          MinReplicas := 0
          MaxReplicas := 0
          CPURequest := toString agg.1 ++ "m"
          CPULimit := toString agg.2.1 ++ "m"
          MemoryRequest := toString agg.2.2.1 ++ "Mi"
          MemoryLimit := toString agg.2.2.2 ++ "Mi"
          MaxUnavailable := strat.1
          MaxSurge := strat.2
          CPUTargetUtilization := 0
          ScaleUpStabilization := none
          ScaleDownStabilization := none
          UpdateResourceAndHPA := ""
          UpdateHPAOnly := "" }
      some (applyHPAList d.name info hpas)

/-- `getDeploymentInfo` (lines 78-168) on the two listings: one record per
Deployment in listing order; a Deployment with nil `Spec.Replicas` crashes
the whole collection (`none`) at that point. -/
def getDeploymentInfo (deployments : List Deployment) (hpas : List HPA) :
    Option (List DeploymentInfo) :=
  match deployments with
  | [] => some []
  | d :: rest =>
      match collectDeployment hpas d with
      | none => none
      | some info =>
          match getDeploymentInfo rest hpas with
          | none => none
          | some infos => some (info :: infos)

/-! ## Record codec — write path (`writeCSV`, lines 171-237) -/

/-- The fixed header row of lines 183-188. -/
def csvHeader : List String :=
  ["No", "Deployment Name", "Namespace", "Replicas",
   "CPU Request", "CPU Limit", "Memory Request", "Memory Limit",
   "MaxUnavailable", "MaxSurge", "Min Replicas", "Max Replicas",
   "CPU Target Utilization", "ScaleUp Stabilization",
   "ScaleDown Stabilization", "UpdateResourceAndHPA", "UpdateHPAOnly"]

/-- The inline nil-check closures of lines 210-223: a present stabilization
window is rendered with `strconv.Itoa`, an absent one as `"N/A"`. -/
def stabString : Option Int → String
  | some v => toString v
  | none => "N/A"

/-- One data row (lines 194-227): 1-based row number, the record's fields in
the fixed column order, and the two intent flags always written as the
literal `"false"`. -/
def csvRecord (i : Nat) (d : DeploymentInfo) : List String :=
  [toString (i + 1),
   d.Name,
   d.Namespace,
   toString d.Replicas,
   d.CPURequest,
   d.CPULimit,
   d.MemoryRequest,
   d.MemoryLimit,
   d.MaxUnavailable,
   d.MaxSurge,
   toString d.MinReplicas,
   toString d.MaxReplicas,
   toString d.CPUTargetUtilization,
   stabString d.ScaleUpStabilization,
   stabString d.ScaleDownStabilization,
   "false",
   "false"]

/-- The data rows of the file: the write loop of lines 193-235, carrying
the 0-based loop index. -/
def dataRowsAux (i : Nat) : List DeploymentInfo → List (List String)
  | [] => []
  | d :: rest => csvRecord i d :: dataRowsAux (i + 1) rest

/-- The data rows of the file, in input order. -/
def dataRows (data : List DeploymentInfo) : List (List String) :=
  dataRowsAux 0 data

/-- `writeCSV` at the row level: header first, then one row per record. -/
def writeCSV (data : List DeploymentInfo) : List (List String) :=
  csvHeader :: dataRows data

/-! ### The pipe-delimited text layer

`main.go` delegates serialization to `encoding/csv` with `Comma = '|'`
(writer, lines 178-180; reader, lines 351-352).  The encoder/decoder below
model that library in the regime where no field needs quoting — a *plain*
field: one that contains none of `|`, `"`, CR, LF, is not the literal
`\.`, and does not start with white space.  On plain fields the Go writer
emits the fields verbatim joined by the delimiter with one `\n` per record,
and the Go reader splits on the delimiter, skips blank lines, and enforces
a uniform field count taken from the first record. -/

/-- A character a plain (unquoted) field may contain. -/
def plainChar (c : Char) : Bool :=
  c != '|' && c != '"' && c != '\r' && c != '\n'

/-- A field the Go csv writer emits without quoting
(`fieldNeedsQuotes` returns false). -/
def plainField (s : String) : Bool :=
  s.data.all plainChar && s != "\\." && !(s.data.headD 'a').isWhitespace

/-- Join character lists with a separator character (the writer's output for
one record, before the record terminator). -/
def joinSep (sep : Char) : List (List Char) → List Char
  | [] => []
  | [x] => x
  | x :: xs => x ++ sep :: joinSep sep xs

/-- Split a character list at every occurrence of the separator. -/
def splitSep (sep : Char) : List Char → List (List Char)
  | [] => [[]]
  | c :: cs =>
      if c = sep then [] :: splitSep sep cs
      else
        match splitSep sep cs with
        | [] => [[c]]
        | h :: t => (c :: h) :: t

/-- One encoded record: fields joined by `|`. -/
def encodeRow (r : List String) : List Char :=
  joinSep '|' (r.map String.data)

/-- The encoded file: each record followed by the `\n` terminator. -/
def encodeFile : List (List String) → List Char
  | [] => []
  | r :: rest => (encodeRow r ++ ['\n']) ++ encodeFile rest

/-- The file produced by `writeCSV` for the given records. -/
def writeCSVFile (data : List DeploymentInfo) : String :=
  String.mk (encodeFile (writeCSV data))

/-- The reader's line layer: split at `\n` and drop blank lines. -/
def decodeLines (file : List Char) : List (List Char) :=
  (splitSep '\n' file).filter (fun l => !l.isEmpty)

/-- One decoded record: split at `|`. -/
def decodeRow (line : List Char) : List String :=
  (splitSep '|' line).map String.mk

/-- The read path of `patchKubeResourcesFromCSV` (lines 351-365) up to the
row level: the first record (the header) is read and discarded but fixes the
expected field count; a record with a different count fails the read
(`ErrFieldCount`), an empty file fails the header read; otherwise the data
records are yielded in order. -/
def readCSVRows (file : String) : Option (List (List String)) :=
  match decodeLines file.data with
  | [] => none
  | header :: rest =>
      let headerFields := decodeRow header
      let rows := rest.map decodeRow
      if rows.all (fun r => r.length == headerFields.length) then some rows
      else none

/-! ## Go string helpers

`strings.ToLower`, `strings.ToUpper` and `strings.TrimSpace` modelled
character-wise over the string's character list (ASCII case mapping, as in
`Char.toLower`/`Char.toUpper`; the inputs the program compares against —
`"true"`, `"Y"` — are ASCII). -/

/-- `strings.ToLower`. -/
def goToLower (s : String) : String :=
  String.mk (s.data.map Char.toLower)

/-- `strings.ToUpper`. -/
def goToUpper (s : String) : String :=
  String.mk (s.data.map Char.toUpper)

/-- `strings.TrimSpace`: drop white space from both ends. -/
def goTrimSpace (s : String) : String :=
  String.mk
    (((s.data.dropWhile Char.isWhitespace).reverse.dropWhile
        Char.isWhitespace).reverse)

/-! ## Numeric field parsing (`strconv.Atoi` with the error discarded,
lines 375-379) -/

/-- The value of a decimal digit, `none` for any other character. -/
def digitVal : Char → Option Nat
  | c => if '0' ≤ c && c ≤ '9' then some (c.toNat - '0'.toNat) else none

/-- Decimal accumulation over a digit run; `none` at the first non-digit. -/
def decValueAux : List Char → Nat → Option Nat
  | [], acc => some acc
  | c :: cs, acc =>
      match digitVal c with
      | none => none
      | some d => decValueAux cs (acc * 10 + d)

/-- The successful-syntax part of `strconv.ParseInt(s, 10, 0)`: an optional
single `+`/`-` sign followed by a non-empty run of decimal digits; `none` is
a syntax error. -/
def goParseInt (s : String) : Option Int :=
  let signed : Bool × List Char :=
    match s.data with
    | '-' :: rest => (true, rest)
    | '+' :: rest => (false, rest)
    | rest => (false, rest)
  match signed.2 with
  | [] => none
  | ds =>
      (decValueAux ds 0).map fun n =>
        if signed.1 then -(n : Int) else (n : Int)

/-- `strconv.Atoi` with the returned error thrown away, as the patch flow
does (`minReplicas, _ := strconv.Atoi(record[10])`, ...): a syntax error
leaves the Go zero value `0`; a value outside the 64-bit range comes back
clamped (Go returns the clamped value together with `ErrRange`, and the
error is discarded). -/
def goAtoi (s : String) : Int :=
  match goParseInt s with
  | none => 0
  | some v =>
      if v < -(2 ^ 63) then -(2 ^ 63)
      else if 2 ^ 63 - 1 < v then 2 ^ 63 - 1
      else v

/-! ## Patch executor (`patchKubeResourcesFromCSV`, lines 344-406, and its
two kubectl helpers) -/

/-- Argument vector of the `kubectl set resources` invocation
(lines 410-415). -/
def setResourcesCmd (nsp deploymentName cpuReq memReq memLim : String) :
    List String :=
  ["kubectl", "set", "resources", "deployment", deploymentName,
   "--namespace=" ++ nsp,
   "--requests=cpu=" ++ cpuReq ++ ",memory=" ++ memReq,
   "--limits=memory=" ++ memLim]

/-- The rolling-update merge-patch payload of line 426. -/
def strategyPatchData (maxUnavailable maxSurge : String) : String :=
  "\x7b\"spec\":\x7b\"strategy\":\x7b\"type\":\"RollingUpdate\",\"rollingUpdate\":\x7b\"maxUnavailable\":\""
    ++ maxUnavailable ++ "\",\"maxSurge\":\"" ++ maxSurge ++ "\"\x7d\x7d\x7d\x7d"

/-- Argument vector of the `kubectl patch deployment` invocation
(lines 428-431). -/
def patchStrategyCmd (nsp deploymentName maxUnavailable maxSurge : String) :
    List String :=
  ["kubectl", "patch", "deployment", deploymentName,
   "--namespace=" ++ nsp, "--type=merge", "-p",
   strategyPatchData maxUnavailable maxSurge]

/-- The HPA merge-patch payload of line 447. -/
def hpaPatchData (minReplicas maxReplicas cpuTargetUtilization
    scaleUpStabilization scaleDownStabilization : Int) : String :=
  "\x7b\"spec\":\x7b\"minReplicas\":" ++ toString minReplicas
    ++ ",\"maxReplicas\":" ++ toString maxReplicas
    ++ ",\"metrics\":[\x7b\"type\":\"Resource\",\"resource\":\x7b\"name\":\"cpu\",\"target\":\x7b\"type\":\"Utilization\",\"averageUtilization\":"
    ++ toString cpuTargetUtilization
    ++ "\x7d\x7d\x7d],\"behavior\":\x7b\"scaleUp\":\x7b\"stabilizationWindowSeconds\":"
    ++ toString scaleUpStabilization
    ++ "\x7d,\"scaleDown\":\x7b\"stabilizationWindowSeconds\":"
    ++ toString scaleDownStabilization ++ "\x7d\x7d\x7d\x7d"

/-- Argument vector of the `kubectl patch hpa` invocation (lines 449-452). -/
def patchHPACmd (hpaName nsp : String) (minReplicas maxReplicas
    cpuTargetUtilization scaleUpStabilization scaleDownStabilization : Int) :
    List String :=
  ["kubectl", "patch", "hpa", hpaName,
   "--namespace=" ++ nsp, "--type=merge", "-p",
   hpaPatchData minReplicas maxReplicas cpuTargetUtilization
     scaleUpStabilization scaleDownStabilization]

/-- Whether each external command invocation succeeds; external collaborator
state, supplied as an oracle over the argument vector. -/
def Outcome : Type := List String → Bool

/-- `setDeploymentResources` (lines 409-442): runs `kubectl set resources`;
on its failure returns that error at once (the strategy patch is *not*
attempted); otherwise also runs the rolling-update merge patch and returns
its verdict.  Result: the invocations attempted, and whether the whole
helper returned nil. -/
def setDeploymentResources (outcome : Outcome)
    (nsp deploymentName cpuReq memReq memLim maxUnavailable maxSurge : String) :
    List (List String) × Bool :=
  let c1 := setResourcesCmd nsp deploymentName cpuReq memReq memLim
  if outcome c1 then
    let c2 := patchStrategyCmd nsp deploymentName maxUnavailable maxSurge
    ([c1, c2], outcome c2)
  else ([c1], false)

/-- `patchHPA` (lines 445-463): one `kubectl patch hpa` invocation. -/
def patchHPA (outcome : Outcome) (hpaName nsp : String)
    (minReplicas maxReplicas cpuTargetUtilization scaleUpStabilization
     scaleDownStabilization : Int) : List (List String) × Bool :=
  let c := patchHPACmd hpaName nsp minReplicas maxReplicas
    cpuTargetUtilization scaleUpStabilization scaleDownStabilization
  ([c], outcome c)

/-- The per-row body of the patch loop (lines 367-400): field extraction by
fixed position, then the flag dispatch.  Errors of either helper are only
printed (lines 386, 392, 398) — they never change what else is attempted —
so the row's contribution is just the concatenation of the attempted
invocations. -/
def processRow (outcome : Outcome) (record : List String) :
    List (List String) :=
  let deploymentName := record.getD 1 ""
  let nsp := record.getD 2 ""
  let cpuRequest := record.getD 4 ""
  let memoryRequest := record.getD 6 ""
  let memoryLimit := record.getD 7 ""
  let maxUnavailable := record.getD 8 ""
  let maxSurge := record.getD 9 ""
  let minReplicas := goAtoi (record.getD 10 "")
  let maxReplicas := goAtoi (record.getD 11 "")
  let cpuTargetUtilization := goAtoi (record.getD 12 "")
  let scaleUpStabilization := goAtoi (record.getD 13 "")
  let scaleDownStabilization := goAtoi (record.getD 14 "")
  if goToLower (record.getD 15 "") == "true" then
    (setDeploymentResources outcome nsp deploymentName cpuRequest
        memoryRequest memoryLimit maxUnavailable maxSurge).1
      ++ (patchHPA outcome deploymentName nsp minReplicas maxReplicas
        cpuTargetUtilization scaleUpStabilization scaleDownStabilization).1
  else if goToLower (record.getD 16 "") == "true" then
    (patchHPA outcome deploymentName nsp minReplicas maxReplicas
      cpuTargetUtilization scaleUpStabilization scaleDownStabilization).1
  else []

/-- `patchKubeResourcesFromCSV` (lines 344-406): open the file (`none`
models a missing file), read it through the csv reader, then run the loop
over every data row; per-row invocation failures are printed and skipped,
and the function ends with `nil` (modelled `.ok`) carrying the full
invocation trace. -/
def patchKubeResourcesFromCSV (outcome : Outcome) (file : Option String) :
    Except String (List (List String)) :=
  match file with
  | none => .error "failed to open CSV file"
  | some content =>
      match readCSVRows content with
      | none => .error "failed to read CSV"
      | some rows => .ok (rows.flatMap (processRow outcome))

/-! ## Restart trigger and interactive shell (lines 266-341, 465-492) -/

/-- `restartDeployment` (lines 303-341): the command built at lines 308-311
restarts *all* deployments; the per-name variant exists only in the
commented-out block of lines 313-325, so the argument vector never depends
on `deploymentName`. -/
def restartDeployment (nsp deploymentName : String) : List String :=
  ["kubectl", "rollout", "restart", "deployment", "--all", "-n", nsp]

/-- `confirmPrompt` (lines 266-273): upper-case the line, trim surrounding
white space, compare with `"Y"`. -/
def confirmPrompt (input : String) : Bool :=
  goTrimSpace (goToUpper input) == "Y"

/-- The externally visible actions of one run. -/
inductive Effect where
  | menu
  | fileWrite (name contents : String)
  | exec (argv : List String)
  deriving Repr, DecidableEq

/-- The external collaborators of one run: the two cluster listings, the
active namespace, the current `deployment-info.csv` contents (if the file
exists), and the command outcome oracle. -/
structure World where
  deployments : List Deployment
  hpas : List HPA
  nsp : String
  csvFile : Option String
  outcome : Outcome

/-- `generateDeploymentInfo` (lines 286-300): collect, then write the file.
A collection panic (nil replicas) crashes before any write. -/
def generateDeploymentInfo (w : World) : List Effect :=
  match getDeploymentInfo w.deployments w.hpas with
  | none => []
  | some data => [.fileWrite "deployment-info.csv" (writeCSVFile data)]

/-- The menu dispatch of `main` (lines 473-490), on the already-trimmed
action line: `"1"` exports, `"2"` patches from the file (its kubectl
invocations become effects; a read failure is only printed), `"3"` calls
`restartDeployment("all")`, `"4"` and anything else do nothing. -/
def dispatchAction (w : World) (action : String) : List Effect :=
  match action with
  | "1" => generateDeploymentInfo w
  | "2" =>
      match patchKubeResourcesFromCSV w.outcome w.csvFile with
      | .ok cmds => cmds.map .exec
      | .error _ => []
  | "3" => [.exec (restartDeployment w.nsp "all")]
  | _ => []

/-- `main` (lines 465-492): the confirmation gate, then the menu prompt
(whose display is the `menu` effect) and the dispatch on the trimmed
choice.  A refused confirmation ends the run with no effect at all. -/
def runMain (w : World) (confirmInput actionInput : String) : List Effect :=
  if !confirmPrompt confirmInput then []
  else .menu :: dispatchAction w (goTrimSpace actionInput)

/-! ## Concrete inputs used by the witnesses -/

/-- The Deployment of the spec's export scenario: `api`, 3 replicas, one
container requesting 200m CPU / 256Mi memory with limits 500m / 512Mi, and
no explicit rolling-update values. -/
def apiDeployment (nsp : String) : Deployment :=
  { name := "api"
    nsp := nsp
    replicas := some 3
    containers :=
      [{ requests := { cpuMilli := some 200, memoryBytes := some (256 * 1024 * 1024) }
         limits := { cpuMilli := some 500, memoryBytes := some (512 * 1024 * 1024) } }]
    strategy := { type := "RollingUpdate", rollingUpdate := none } }

/-- The HPA of the spec's export scenario: targets `api`, min 2, max 10,
CPU target 70%, no behavior block. -/
def apiHPA : HPA :=
  { scaleTargetRef := { name := "api", kind := "Deployment" }
    minReplicas := some 2
    maxReplicas := 10
    metrics :=
      [{ type := "Resource"
         resource := some { name := "cpu", target := { averageUtilization := some 70 } } }]
    behavior := none }

/-- A Deployment with two containers requesting 100Mi and 150Mi memory. -/
def twoContainerDeployment : Deployment :=
  { name := "web"
    nsp := "prod"
    replicas := some 1
    containers :=
      [{ requests := { cpuMilli := some 100, memoryBytes := some (100 * 1024 * 1024) }
         limits := { cpuMilli := none, memoryBytes := none } },
       { requests := { cpuMilli := some 150, memoryBytes := some (150 * 1024 * 1024) }
         limits := { cpuMilli := none, memoryBytes := none } }]
    strategy := { type := "Recreate", rollingUpdate := none } }

/-- A Deployment whose spec leaves `replicas` unset (nil). -/
def nilReplicasDeployment : Deployment :=
  { name := "broken"
    nsp := "prod"
    replicas := none
    containers := []
    strategy := { type := "RollingUpdate", rollingUpdate := none } }

/-- A hand-edited 17-field CSV row asking for both updates. -/
def demoRowBoth : List String :=
  ["1", "api", "prod", "3", "200m", "500m", "256Mi", "512Mi", "", "",
   "2", "10", "70", "N/A", "N/A", "TRUE", "false"]

/-- A hand-edited 17-field CSV row asking for the HPA update only. -/
def demoRowHPAOnly : List String :=
  ["2", "web", "prod", "1", "250m", "0m", "250Mi", "0Mi", "", "",
   "1", "5", "80", "30", "300", "false", "true"]

/-- A hand-edited CSV file: the exported header plus one both-updates row
whose stabilization windows still hold the exported `"N/A"` sentinel. -/
def demoCSV : String :=
  "No|Deployment Name|Namespace|Replicas|CPU Request|CPU Limit|Memory Request|Memory Limit|MaxUnavailable|MaxSurge|Min Replicas|Max Replicas|CPU Target Utilization|ScaleUp Stabilization|ScaleDown Stabilization|UpdateResourceAndHPA|UpdateHPAOnly\n1|api|prod|3|200m|500m|256Mi|512Mi|||2|10|70|N/A|N/A|true|false\n"

/-- A world for the interactive-shell witnesses. -/
def demoWorld : World :=
  { deployments := [apiDeployment "prod"]
    hpas := [apiHPA]
    nsp := "prod"
    csvFile := some demoCSV
    outcome := fun _ => true }

/-- A metric the scan of lines 141-147 draws a value from: `Resource`-typed,
with a non-nil resource named `cpu` and a non-nil average utilization. -/
def isCpuUtilMetric (m : MetricSpec) : Bool :=
  m.type == "Resource" &&
    (match m.resource with
     | some r => r.name == "cpu" && r.target.averageUtilization.isSome
     | none => false)

/-! # Theorems -/

/-! ## Collector lemmas -/

/-- The container accumulation loop computes the four per-field sums on top
of whatever the accumulator held. -/
theorem aggregate_eq : ∀ (cs : List Container) (a b c d : Int),
    aggregate cs (a, b, c, d) =
      (a + (cs.map fun x => x.requests.cpuMilli.getD 0).sum,
       b + (cs.map fun x => x.limits.cpuMilli.getD 0).sum,
       c + (cs.map fun x => (x.requests.memoryBytes.getD 0).tdiv (1024 * 1024)).sum,
       d + (cs.map fun x => (x.limits.memoryBytes.getD 0).tdiv (1024 * 1024)).sum)
  | [], a, b, c, d => by simp [aggregate]
  | x :: cs, a, b, c, d => by
      simp only [aggregate, aggregate_eq cs, List.map_cons, List.sum_cons,
        Prod.mk.injEq]
      refine ⟨by ring, by ring, by ring, by ring⟩

/-- The HPA scan never touches the identity, replica and resource-string
fields of the record. -/
theorem applyHPAList_resources (dname : String) {info : DeploymentInfo} :
    ∀ (hpas : List HPA),
      (applyHPAList dname info hpas).CPURequest = info.CPURequest ∧
      (applyHPAList dname info hpas).CPULimit = info.CPULimit ∧
      (applyHPAList dname info hpas).MemoryRequest = info.MemoryRequest ∧
      (applyHPAList dname info hpas).MemoryLimit = info.MemoryLimit
  | [] => by simp [applyHPAList]
  | h :: rest => by
      by_cases hm : hpaMatches dname h
      · simp [applyHPAList, hm, applyMatchedHPA]
      · simp only [applyHPAList, hm, Bool.false_eq_true, if_false]
        exact applyHPAList_resources dname rest

/-- The loop-with-break of lines 131-163 applies exactly the first matching
HPA of the listing. -/
theorem applyHPAList_eq_find (dname : String) (info : DeploymentInfo) :
    ∀ (hpas : List HPA),
      applyHPAList dname info hpas =
        match hpas.find? (hpaMatches dname) with
        | none => info
        | some h => applyMatchedHPA info h
  | [] => rfl
  | h :: rest => by
      by_cases hm : hpaMatches dname h
      · rw [List.find?_cons_of_pos _ hm]
        simp [applyHPAList, hm]
      · rw [List.find?_cons_of_neg _ hm]
        simp only [applyHPAList, hm, Bool.false_eq_true, if_false]
        exact applyHPAList_eq_find dname info rest

/-- A non-CPU metric leaves the running utilization value unchanged. -/
theorem cpuUtilStep_of_not (acc : Int) (m : MetricSpec)
    (h : isCpuUtilMetric m = false) : cpuUtilStep acc m = acc := by
  unfold cpuUtilStep
  unfold isCpuUtilMetric at h
  by_cases ht : m.type == "Resource"
  · simp only [ht, Bool.true_and] at h
    simp only [ht, if_true]
    cases hr : m.resource with
    | none => rfl
    | some r =>
        rw [hr] at h
        by_cases hn : r.name == "cpu"
        · simp only [hn, Bool.true_and] at h
          simp only [hn, if_true]
          cases hu : r.target.averageUtilization with
          | none => rfl
          | some u => rw [hu] at h; simp at h
        · simp [hn]
  · simp [ht]

/-- If no metric of the list is a CPU utilization metric, the scan keeps its
initial value. -/
theorem foldl_cpuUtilStep (init : Int) :
    ∀ (ms : List MetricSpec), (∀ m ∈ ms, isCpuUtilMetric m = false) →
      ms.foldl cpuUtilStep init = init
  | [], _ => rfl
  | m :: ms, h => by
      rw [List.foldl_cons, cpuUtilStep_of_not init m (h m (by simp))]
      exact foldl_cpuUtilStep init ms fun x hx => h x (List.mem_cons_of_mem _ hx)

/-- C5: for every Deployment the collector sums CPU requests and limits in
millicores and memory requests and limits (each container's byte value
divided by 1024*1024 with truncating integer division) across all
containers, an unset request or limit contributing zero (`Option.getD 0`),
and formats the sums with an `m` suffix for CPU and an `Mi` suffix for
memory. -/
theorem resource_aggregation (d : Deployment) (hpas : List HPA)
    (info : DeploymentInfo) (h : collectDeployment hpas d = some info) :
    info.CPURequest =
        toString ((d.containers.map fun c => c.requests.cpuMilli.getD 0).sum) ++ "m" ∧
    info.CPULimit =
        toString ((d.containers.map fun c => c.limits.cpuMilli.getD 0).sum) ++ "m" ∧
    info.MemoryRequest =
        toString ((d.containers.map fun c =>
          (c.requests.memoryBytes.getD 0).tdiv (1024 * 1024)).sum) ++ "Mi" ∧
    info.MemoryLimit =
        toString ((d.containers.map fun c =>
          (c.limits.memoryBytes.getD 0).tdiv (1024 * 1024)).sum) ++ "Mi" := by
  cases hrep : d.replicas with
  | none => simp [collectDeployment, hrep] at h
  | some r =>
      simp only [collectDeployment, hrep, Option.some.injEq] at h
      subst h
      refine ⟨?_, ?_, ?_, ?_⟩
      · rw [(applyHPAList_resources d.name hpas).1, aggregate_eq]
        simp
      · rw [(applyHPAList_resources d.name hpas).2.1, aggregate_eq]
        simp
      · rw [(applyHPAList_resources d.name hpas).2.2.1, aggregate_eq]
        simp
      · rw [(applyHPAList_resources d.name hpas).2.2.2, aggregate_eq]
        simp

/-- Witness for C5 at the spec's own instance: two containers requesting
100Mi and 150Mi yield the exported Memory Request `"250Mi"`. -/
theorem resource_aggregation_witness :
    ((collectDeployment [] twoContainerDeployment).getD default).MemoryRequest
      = "250Mi" := by
  have h : collectDeployment [] twoContainerDeployment =
      some ((collectDeployment [] twoContainerDeployment).getD default) := rfl
  have h2 := (resource_aggregation twoContainerDeployment [] _ h).2.2.1
  rw [h2]
  decide

/-- C6: the HPA-derived fields of a Deployment's record come from at most
one HPA — the first entry in list order whose scale-target reference has
the Deployment's name and kind `"Deployment"`.  With no match they keep
their zero values; with a match, minReplicas defaults to 1 when the HPA
leaves it null, maxReplicas is copied, the CPU target utilization is 0 when
no CPU resource metric is configured, and each stabilization window is null
whenever the behavior block or that side of it is absent. -/
theorem hpa_first_match_fields (d : Deployment) (hpas : List HPA)
    (info : DeploymentInfo) (h : collectDeployment hpas d = some info) :
    (match hpas.find? (hpaMatches d.name) with
     | none =>
         info.MinReplicas = 0 ∧ info.MaxReplicas = 0 ∧
         info.CPUTargetUtilization = 0 ∧
         info.ScaleUpStabilization = none ∧
         info.ScaleDownStabilization = none
     | some hpa =>
         info.MinReplicas = hpa.minReplicas.getD 1 ∧
         info.MaxReplicas = hpa.maxReplicas ∧
         ((∀ m ∈ hpa.metrics, isCpuUtilMetric m = false) →
             info.CPUTargetUtilization = 0) ∧
         info.ScaleUpStabilization =
           (hpa.behavior.bind HPABehavior.scaleUp).bind
             ScalingRules.stabilizationWindowSeconds ∧
         info.ScaleDownStabilization =
           (hpa.behavior.bind HPABehavior.scaleDown).bind
             ScalingRules.stabilizationWindowSeconds) := by
  cases hrep : d.replicas with
  | none => simp [collectDeployment, hrep] at h
  | some r =>
      simp only [collectDeployment, hrep, Option.some.injEq] at h
      subst h
      rw [applyHPAList_eq_find]
      cases hf : hpas.find? (hpaMatches d.name) with
      | none => exact ⟨rfl, rfl, rfl, rfl, rfl⟩
      | some hpa =>
          refine ⟨rfl, rfl, ?_, ?_, ?_⟩
          · intro hnone
            exact foldl_cpuUtilStep 0 hpa.metrics hnone
          · cases hb : hpa.behavior with
            | none => simp [applyMatchedHPA, hb]
            | some b =>
                cases hsu : b.scaleUp with
                | none => simp [applyMatchedHPA, hb, hsu]
                | some su => simp [applyMatchedHPA, hb, hsu]
          · cases hb : hpa.behavior with
            | none => simp [applyMatchedHPA, hb]
            | some b =>
                cases hsd : b.scaleDown with
                | none => simp [applyMatchedHPA, hb, hsd]
                | some sd => simp [applyMatchedHPA, hb, hsd]

/-- Witness for C6: the scenario HPA is matched and its fields land in the
record (minReplicas 2 from the HPA, both windows null since it has no
behavior block). -/
theorem hpa_first_match_fields_witness :
    ((collectDeployment [apiHPA] (apiDeployment "prod")).getD default).MinReplicas
      = 2 := by
  have h : collectDeployment [apiHPA] (apiDeployment "prod") =
      some ((collectDeployment [apiHPA] (apiDeployment "prod")).getD default) := rfl
  have h2 := hpa_first_match_fields (apiDeployment "prod") [apiHPA] _ h
  exact h2.1.trans rfl

/-- C9 (implicit): line 98 dereferences `deploy.Spec.Replicas`
unconditionally, so a listed Deployment whose spec leaves replicas nil
makes collection panic (`none`) instead of producing the record sequence or
an error value; collection is total exactly under the precondition that
every listed Deployment carries an explicit replica count. -/
theorem replicas_nil_collection_panics (ds : List Deployment) (hpas : List HPA) :
    ((∃ d ∈ ds, d.replicas = none) → getDeploymentInfo ds hpas = none) ∧
    ((∀ d ∈ ds, d.replicas ≠ none) →
      (getDeploymentInfo ds hpas).isSome = true) := by
  induction ds with
  | nil =>
      refine ⟨?_, ?_⟩
      · rintro ⟨d, hd, _⟩
        exact absurd hd (List.not_mem_nil d)
      · intro
        simp [getDeploymentInfo]
  | cons d rest ih =>
      refine ⟨?_, ?_⟩
      · rintro ⟨x, hx, hrep⟩
        rcases List.mem_cons.1 hx with rfl | hx2
        · simp [getDeploymentInfo, collectDeployment, hrep]
        · simp only [getDeploymentInfo]
          cases hc : collectDeployment hpas d with
          | none => rfl
          | some info => rw [ih.1 ⟨x, hx2, hrep⟩]
      · intro hall
        have hd := hall d (List.mem_cons_self d rest)
        simp only [getDeploymentInfo]
        cases hrep : d.replicas with
        | none => exact absurd hrep hd
        | some r =>
            have hc : collectDeployment hpas d =
                some (applyHPAList d.name
                  { Name := d.name
                    Namespace := d.nsp
                    Replicas := r
                    MinReplicas := 0
                    MaxReplicas := 0
                    CPURequest := toString (aggregate d.containers (0, 0, 0, 0)).1 ++ "m"
                    CPULimit := toString (aggregate d.containers (0, 0, 0, 0)).2.1 ++ "m"
                    MemoryRequest := toString (aggregate d.containers (0, 0, 0, 0)).2.2.1 ++ "Mi"
                    MemoryLimit := toString (aggregate d.containers (0, 0, 0, 0)).2.2.2 ++ "Mi"
                    MaxUnavailable := (strategyStrings d.strategy).1
                    MaxSurge := (strategyStrings d.strategy).2
                    CPUTargetUtilization := 0
                    ScaleUpStabilization := none
                    ScaleDownStabilization := none
                    UpdateResourceAndHPA := ""
                    UpdateHPAOnly := "" } hpas) := by
              simp [collectDeployment, hrep]
            rw [hc]
            have hrest := ih.2 fun x hx => hall x (List.mem_cons_of_mem d hx)
            cases hr : getDeploymentInfo rest hpas with
            | none => rw [hr] at hrest; simp at hrest
            | some infos => simp

/-- Witness for C9: a nil-replicas Deployment crashes collection; the
scenario Deployment (explicit replicas) collects fine. -/
theorem replicas_nil_collection_panics_witness :
    getDeploymentInfo [nilReplicasDeployment] [] = none ∧
    (getDeploymentInfo [apiDeployment "prod"] [apiHPA]).isSome = true :=
  ⟨(replicas_nil_collection_panics [nilReplicasDeployment] []).1
      ⟨nilReplicasDeployment, List.mem_singleton_self _, rfl⟩,
   (replicas_nil_collection_panics [apiDeployment "prod"] [apiHPA]).2
      (by
        intro x hx
        rcases List.mem_singleton.1 hx with rfl
        decide)⟩

/-- C4: exporting a namespace holding exactly the scenario Deployment `api`
(3 replicas, one container 200m/500m CPU and 256Mi/512Mi memory, no
explicit rolling-update values) and the scenario HPA (min 2, max 10, CPU
target 70, no behavior block) produces the header plus the single data row
`1|api|<ns>|3|200m|500m|256Mi|512Mi||||2|10|70|N/A|N/A|false|false`. -/
theorem export_api_scenario (nsp : String) :
    (getDeploymentInfo [apiDeployment nsp] [apiHPA]).map writeCSV =
      some [csvHeader,
        ["1", "api", nsp, "3", "200m", "500m", "256Mi", "512Mi", "", "",
         "2", "10", "70", "N/A", "N/A", "false", "false"]] := rfl

/-! ## Codec lemmas -/

/-- The unfolding of `splitSep` at a cons cell. -/
theorem splitSep_cons (sep c : Char) (cs : List Char) :
    splitSep sep (c :: cs) =
      if c = sep then [] :: splitSep sep cs
      else
        match splitSep sep cs with
        | [] => [[c]]
        | h :: t => (c :: h) :: t := rfl

/-- The unfolding of `joinSep` at two or more parts. -/
theorem joinSep_cons2 (sep : Char) (x y : List Char) (t : List (List Char)) :
    joinSep sep (x :: y :: t) = x ++ sep :: joinSep sep (y :: t) := rfl

/-- Splitting a separator-free character list is the identity (one field). -/
theorem splitSep_no_sep (sep : Char) :
    ∀ (l : List Char), (∀ c ∈ l, c ≠ sep) → splitSep sep l = [l]
  | [], _ => rfl
  | c :: cs, h => by
      have hc : c ≠ sep := h c (List.mem_cons_self c cs)
      have ih := splitSep_no_sep sep cs fun x hx => h x (List.mem_cons_of_mem c hx)
      simp only [splitSep, if_neg hc, ih]

/-- Splitting at the first separator occurrence peels off the prefix. -/
theorem splitSep_append (sep : Char) :
    ∀ (a b : List Char), (∀ c ∈ a, c ≠ sep) →
      splitSep sep (a ++ sep :: b) = a :: splitSep sep b
  | [], b, _ => by simp [splitSep]
  | c :: a2, b, h => by
      have hc : c ≠ sep := h c (List.mem_cons_self c a2)
      have ih := splitSep_append sep a2 b fun x hx => h x (List.mem_cons_of_mem c hx)
      rw [List.cons_append, splitSep_cons, if_neg hc, ih]

/-- Splitting inverts joining for a non-empty list of separator-free
parts. -/
theorem splitSep_joinSep (sep : Char) :
    ∀ (parts : List (List Char)), parts ≠ [] →
      (∀ p ∈ parts, ∀ c ∈ p, c ≠ sep) →
      splitSep sep (joinSep sep parts) = parts
  | [], hne, _ => absurd rfl hne
  | [x], _, hp => by
      simp only [joinSep]
      exact splitSep_no_sep sep x (hp x (List.mem_singleton_self x))
  | x :: y :: t, _, hp => by
      have hx : ∀ c ∈ x, c ≠ sep := hp x (List.mem_cons_self x (y :: t))
      have ih := splitSep_joinSep sep (y :: t) (by simp)
        fun p hp2 => hp p (List.mem_cons_of_mem x hp2)
      simp only [joinSep, splitSep_append sep x _ hx, ih]

/-- Every character of a join is the separator or comes from a part. -/
theorem mem_joinSep (sep : Char) {c : Char} :
    ∀ (parts : List (List Char)), c ∈ joinSep sep parts →
      c = sep ∨ ∃ p, p ∈ parts ∧ c ∈ p
  | [], h => by simp [joinSep] at h
  | [x], h => Or.inr ⟨x, List.mem_singleton_self x, h⟩
  | x :: y :: t, h => by
      rw [joinSep_cons2, List.mem_append, List.mem_cons] at h
      rcases h with hx | hc | hrest
      · exact Or.inr ⟨x, List.mem_cons_self x (y :: t), hx⟩
      · exact Or.inl hc
      · rcases mem_joinSep sep (y :: t) hrest with h1 | ⟨p, hp, hcp⟩
        · exact Or.inl h1
        · exact Or.inr ⟨p, List.mem_cons_of_mem x hp, hcp⟩

/-- A plain field contains no pipe character. -/
theorem plainField_no_pipe {f : String} (h : plainField f = true) :
    ∀ c ∈ f.data, c ≠ '|' := by
  intro c hc
  have h1 : f.data.all plainChar = true := by
    simp only [plainField, Bool.and_eq_true] at h
    exact h.1.1
  have h2 := List.all_eq_true.1 h1 c hc
  simp only [plainChar, Bool.and_eq_true, bne_iff_ne, ne_eq] at h2
  exact h2.1.1.1

/-- A plain field contains no line feed. -/
theorem plainField_no_lf {f : String} (h : plainField f = true) :
    ∀ c ∈ f.data, c ≠ '\n' := by
  intro c hc
  have h1 : f.data.all plainChar = true := by
    simp only [plainField, Bool.and_eq_true] at h
    exact h.1.1
  have h2 := List.all_eq_true.1 h1 c hc
  simp only [plainChar, Bool.and_eq_true, bne_iff_ne, ne_eq] at h2
  exact h2.2

/-- An encoded row of plain fields contains no line feed. -/
theorem encodeRow_no_lf {r : List String}
    (hp : ∀ f ∈ r, plainField f = true) :
    ∀ c ∈ encodeRow r, c ≠ '\n' := by
  intro c hc
  rcases mem_joinSep '|' (r.map String.data) hc with h1 | ⟨p, hp2, hcp⟩
  · subst h1; decide
  · rcases List.mem_map.1 hp2 with ⟨f, hf, rfl⟩
    exact plainField_no_lf (hp f hf) c hcp

/-- A row of at least two fields encodes to a non-empty line. -/
theorem encodeRow_ne_nil : ∀ (r : List String), 2 ≤ r.length →
    encodeRow r ≠ []
  | [], h => by simp at h
  | [x], h => by simp at h
  | x :: y :: t, _ => by
      simp only [encodeRow, List.map_cons, joinSep]
      simp

/-- Decoding inverts encoding on a non-empty row of plain fields. -/
theorem decodeRow_encodeRow : ∀ (r : List String), r ≠ [] →
    (∀ f ∈ r, plainField f = true) →
    decodeRow (encodeRow r) = r := by
  intro r hr hp
  unfold decodeRow encodeRow
  rw [splitSep_joinSep '|' (r.map String.data) (by simpa using hr)
    (by
      intro p hp2
      rcases List.mem_map.1 hp2 with ⟨f, hf, rfl⟩
      exact plainField_no_pipe (hp f hf))]
  rw [List.map_map]
  have : ∀ (l : List String), l.map (String.mk ∘ String.data) = l := by
    intro l
    induction l with
    | nil => rfl
    | cons s rest ih =>
        rw [List.map_cons, ih]
        rfl
  exact this r

/-- The line layer inverts file encoding: non-empty, line-feed-free encoded
rows come back unchanged, the trailing record terminator producing no
spurious line. -/
theorem decodeLines_encodeFile : ∀ (rows : List (List String)),
    (∀ r ∈ rows, encodeRow r ≠ [] ∧ ∀ c ∈ encodeRow r, c ≠ '\n') →
    decodeLines (encodeFile rows) = rows.map encodeRow
  | [], _ => rfl
  | r :: rest, h => by
      have h1 := (h r (List.mem_cons_self r rest)).1
      have h2 := (h r (List.mem_cons_self r rest)).2
      have ih := decodeLines_encodeFile rest
        fun r2 hr2 => h r2 (List.mem_cons_of_mem r hr2)
      unfold decodeLines at ih ⊢
      have hfile : encodeFile (r :: rest) = encodeRow r ++ '\n' :: encodeFile rest := by
        simp [encodeFile]
      rw [hfile, splitSep_append '\n' _ _ h2]
      have hpos : (!(encodeRow r).isEmpty) = true := by
        cases he : encodeRow r with
        | nil => exact absurd he h1
        | cons a l => rfl
      simp only [List.filter_cons, hpos, if_true, ih, List.map_cons]

/-- Every data row is a `csvRecord`, hence has the full 17 fields. -/
theorem dataRowsAux_mem : ∀ (i : Nat) (data : List DeploymentInfo),
    ∀ row ∈ dataRowsAux i data, ∃ j d, row = csvRecord j d
  | _, [], _, hrow => absurd hrow (List.not_mem_nil _)
  | i, d :: rest, row, hrow => by
      rcases List.mem_cons.1 hrow with rfl | h2
      · exact ⟨i, d, rfl⟩
      · exact dataRowsAux_mem (i + 1) rest row h2

/-- A `csvRecord` always has 17 fields. -/
theorem csvRecord_length (i : Nat) (d : DeploymentInfo) :
    (csvRecord i d).length = 17 := rfl

/-- Mapping decode-of-encode over rows it inverts on is the identity. -/
theorem decode_map_encode : ∀ (rows : List (List String)),
    (∀ r ∈ rows, decodeRow (encodeRow r) = r) →
    (rows.map encodeRow).map decodeRow = rows
  | [], _ => rfl
  | r :: rest, h => by
      simp only [List.map_cons]
      rw [h r (List.mem_cons_self r rest),
        decode_map_encode rest fun x hx => h x (List.mem_cons_of_mem r hx)]

/-- Exposing `readCSVRows` once the line layer is known. -/
theorem readCSVRows_of_decode (file : String) (header : List Char)
    (rest : List (List Char)) (h : decodeLines file.data = header :: rest) :
    readCSVRows file =
      (if (rest.map decodeRow).all
          (fun r => r.length == (decodeRow header).length)
        then some (rest.map decodeRow) else none) := by
  unfold readCSVRows
  rw [h]

/-- C2: exporting a sequence of records and re-importing the file through
the read path yields, for every row, exactly the 17 field strings written —
under the (spec-stated) assumption that the written fields are plain, i.e.
contain no delimiter, quote or line break and need no csv quoting.  The
written fields include the literal `"N/A"` for an absent stabilization
window and the literal `"false"` for both update-intent flags. -/
theorem csv_roundTrip (ds : List DeploymentInfo)
    (H : ∀ row ∈ dataRows ds, ∀ f ∈ row, plainField f = true) :
    readCSVRows (writeCSVFile ds) = some (dataRows ds) ∧
    (∀ (d : DeploymentInfo) (i : Nat),
      (csvRecord i d).getD 15 "" = "false" ∧
      (csvRecord i d).getD 16 "" = "false" ∧
      (d.ScaleUpStabilization = none → (csvRecord i d).getD 13 "" = "N/A") ∧
      (d.ScaleDownStabilization = none → (csvRecord i d).getD 14 "" = "N/A")) := by
  constructor
  · have hplainHeader : ∀ f ∈ csvHeader, plainField f = true := by decide
    have hrows : ∀ row ∈ dataRows ds, ∃ j d, row = csvRecord j d :=
      dataRowsAux_mem 0 ds
    have hlen : ∀ row ∈ dataRows ds, row.length = 17 := by
      intro row hrow
      rcases hrows row hrow with ⟨j, d, rfl⟩
      exact csvRecord_length j d
    have hfacts : ∀ r ∈ writeCSV ds,
        encodeRow r ≠ [] ∧ ∀ c ∈ encodeRow r, c ≠ '\n' := by
      intro r hr
      rcases List.mem_cons.1 hr with rfl | hr2
      · exact ⟨encodeRow_ne_nil csvHeader (by decide),
          encodeRow_no_lf hplainHeader⟩
      · refine ⟨encodeRow_ne_nil r ?_, encodeRow_no_lf (H r hr2)⟩
        rw [hlen r hr2]
        omega
    have hdec2 : decodeLines (writeCSVFile ds).data =
        encodeRow csvHeader :: (dataRows ds).map encodeRow := by
      show decodeLines (encodeFile (writeCSV ds)) = _
      rw [decodeLines_encodeFile (writeCSV ds) hfacts]
      simp only [writeCSV, List.map_cons]
    have hhdr : decodeRow (encodeRow csvHeader) = csvHeader :=
      decodeRow_encodeRow csvHeader (by decide) hplainHeader
    have hback : ((dataRows ds).map encodeRow).map decodeRow = dataRows ds := by
      apply decode_map_encode
      intro r hr
      apply decodeRow_encodeRow
      · have h17 := hlen r hr
        intro hnil
        rw [hnil] at h17
        simp at h17
      · exact H r hr
    rw [readCSVRows_of_decode _ _ _ hdec2, hback, hhdr]
    rw [if_pos]
    apply List.all_eq_true.2
    intro r hr
    have h17 := hlen r hr
    simp only [h17]
    decide
  · intro d i
    refine ⟨rfl, rfl, ?_, ?_⟩
    · intro h
      simp [csvRecord, stabString, h]
    · intro h
      simp [csvRecord, stabString, h]

/-- Witness for C2 at the scenario record (whose fields are all plain). -/
theorem csv_roundTrip_witness :
    readCSVRows (writeCSVFile
        [(collectDeployment [apiHPA] (apiDeployment "prod")).getD default]) =
      some (dataRows
        [(collectDeployment [apiHPA] (apiDeployment "prod")).getD default]) :=
  (csv_roundTrip
    [(collectDeployment [apiHPA] (apiDeployment "prod")).getD default]
    (by decide)).1

/-! ## Patch-flow lemmas -/

/-- The trace of a row whose `UpdateResourceAndHPA` field (column 16,
index 15) is `"true"` case-insensitively. -/
theorem processRow_true15 (outcome : Outcome) (r : List String)
    (h : goToLower (r.getD 15 "") = "true") :
    processRow outcome r =
      (setDeploymentResources outcome (r.getD 2 "") (r.getD 1 "") (r.getD 4 "")
          (r.getD 6 "") (r.getD 7 "") (r.getD 8 "") (r.getD 9 "")).1 ++
        [patchHPACmd (r.getD 1 "") (r.getD 2 "") (goAtoi (r.getD 10 ""))
          (goAtoi (r.getD 11 "")) (goAtoi (r.getD 12 ""))
          (goAtoi (r.getD 13 "")) (goAtoi (r.getD 14 ""))] := by
  have bq : (goToLower (r.getD 15 "") == "true") = true := beq_iff_eq.2 h
  simp only [processRow, patchHPA, bq, if_true]

/-- The trace of a row whose `UpdateResourceAndHPA` field is not `"true"`
but whose `UpdateHPAOnly` field (column 17, index 16) is. -/
theorem processRow_true16 (outcome : Outcome) (r : List String)
    (h15 : ¬goToLower (r.getD 15 "") = "true")
    (h16 : goToLower (r.getD 16 "") = "true") :
    processRow outcome r =
      [patchHPACmd (r.getD 1 "") (r.getD 2 "") (goAtoi (r.getD 10 ""))
        (goAtoi (r.getD 11 "")) (goAtoi (r.getD 12 ""))
        (goAtoi (r.getD 13 "")) (goAtoi (r.getD 14 ""))] := by
  have bq15 : (goToLower (r.getD 15 "") == "true") = false :=
    beq_eq_false_iff_ne.2 h15
  have bq16 : (goToLower (r.getD 16 "") == "true") = true := beq_iff_eq.2 h16
  simp only [processRow, patchHPA, bq15, Bool.false_eq_true, if_false,
    bq16, if_true]

/-- The trace of a row with neither flag set: nothing is invoked. -/
theorem processRow_neither (outcome : Outcome) (r : List String)
    (h15 : ¬goToLower (r.getD 15 "") = "true")
    (h16 : ¬goToLower (r.getD 16 "") = "true") :
    processRow outcome r = [] := by
  have bq15 : (goToLower (r.getD 15 "") == "true") = false :=
    beq_eq_false_iff_ne.2 h15
  have bq16 : (goToLower (r.getD 16 "") == "true") = false :=
    beq_eq_false_iff_ne.2 h16
  simp only [processRow, bq15, bq16, Bool.false_eq_true, if_false]

/-- The `kubectl set resources` invocation opens the helper's trace whether
or not it succeeds. -/
theorem setResources_mem (outcome : Outcome)
    (a b c d e f g : String) :
    setResourcesCmd a b c d e ∈ (setDeploymentResources outcome a b c d e f g).1 := by
  unfold setDeploymentResources
  by_cases h : outcome (setResourcesCmd a b c d e) <;> simp [h]

/-- Whenever a row carries either update flag, its HPA merge-patch
invocation is attempted — whatever any command outcome is. -/
theorem hpa_mem_processRow (outcome : Outcome) (r : List String)
    (h : goToLower (r.getD 15 "") = "true" ∨ goToLower (r.getD 16 "") = "true") :
    patchHPACmd (r.getD 1 "") (r.getD 2 "") (goAtoi (r.getD 10 ""))
        (goAtoi (r.getD 11 "")) (goAtoi (r.getD 12 ""))
        (goAtoi (r.getD 13 "")) (goAtoi (r.getD 14 ""))
      ∈ processRow outcome r := by
  by_cases h15 : goToLower (r.getD 15 "") = "true"
  · rw [processRow_true15 outcome r h15]
    exact List.mem_append_right _ (List.mem_singleton_self _)
  · have h16 : goToLower (r.getD 16 "") = "true" := h.resolve_left h15
    rw [processRow_true16 outcome r h15 h16]
    exact List.mem_singleton_self _

/-- C1: for every well-formed CSV row of the patch flow, if column 16
(`UpdateResourceAndHPA`) equals `"true"` case-insensitively both the
resource-set invocation (with the row's CPU request, memory request and
memory limit) and the HPA merge-patch invocation are issued; otherwise if
column 17 (`UpdateHPAOnly`) equals `"true"` case-insensitively exactly the
HPA merge-patch invocation is issued; with neither flag, nothing is
issued. -/
theorem patch_row_flag_dispatch (outcome : Outcome) (r : List String)
    (hr : r.length = 17) :
    (goToLower (r.getD 15 "") = "true" →
        setResourcesCmd (r.getD 2 "") (r.getD 1 "") (r.getD 4 "")
            (r.getD 6 "") (r.getD 7 "") ∈ processRow outcome r ∧
        patchHPACmd (r.getD 1 "") (r.getD 2 "") (goAtoi (r.getD 10 ""))
            (goAtoi (r.getD 11 "")) (goAtoi (r.getD 12 ""))
            (goAtoi (r.getD 13 "")) (goAtoi (r.getD 14 ""))
          ∈ processRow outcome r) ∧
    (¬goToLower (r.getD 15 "") = "true" → goToLower (r.getD 16 "") = "true" →
        processRow outcome r =
          [patchHPACmd (r.getD 1 "") (r.getD 2 "") (goAtoi (r.getD 10 ""))
            (goAtoi (r.getD 11 "")) (goAtoi (r.getD 12 ""))
            (goAtoi (r.getD 13 "")) (goAtoi (r.getD 14 ""))]) ∧
    (¬goToLower (r.getD 15 "") = "true" → ¬goToLower (r.getD 16 "") = "true" →
        processRow outcome r = []) := by
  refine ⟨?_, ?_, ?_⟩
  · intro h15
    refine ⟨?_, hpa_mem_processRow outcome r (Or.inl h15)⟩
    rw [processRow_true15 outcome r h15]
    exact List.mem_append_left _ (setResources_mem outcome _ _ _ _ _ _ _)
  · exact processRow_true16 outcome r
  · exact processRow_neither outcome r

/-- Witness for C1 at the hand-edited demo row (flag `"TRUE"`). -/
theorem patch_row_flag_dispatch_witness :
    patchHPACmd (demoRowBoth.getD 1 "") (demoRowBoth.getD 2 "")
        (goAtoi (demoRowBoth.getD 10 "")) (goAtoi (demoRowBoth.getD 11 ""))
        (goAtoi (demoRowBoth.getD 12 "")) (goAtoi (demoRowBoth.getD 13 ""))
        (goAtoi (demoRowBoth.getD 14 ""))
      ∈ processRow (fun _ => true) demoRowBoth :=
  ((patch_row_flag_dispatch (fun _ => true) demoRowBoth (by decide)).1
    (by decide)).2

/-- C3: the patch loop never aborts on a per-row invocation failure — for
any outcome of the external commands, the flow still returns the success
signal carrying the trace over *all* rows, and every flagged row's HPA
merge-patch invocation is in that trace (in particular even when its
resource-set invocation failed, since the outcome oracle is universally
quantified). -/
theorem patch_partial_failure (outcome : Outcome) (content : String)
    (rows : List (List String)) (hread : readCSVRows content = some rows) :
    patchKubeResourcesFromCSV outcome (some content) =
      .ok (rows.flatMap (processRow outcome)) ∧
    ∀ r ∈ rows,
      (goToLower (r.getD 15 "") = "true" ∨ goToLower (r.getD 16 "") = "true") →
      patchHPACmd (r.getD 1 "") (r.getD 2 "") (goAtoi (r.getD 10 ""))
          (goAtoi (r.getD 11 "")) (goAtoi (r.getD 12 ""))
          (goAtoi (r.getD 13 "")) (goAtoi (r.getD 14 ""))
        ∈ rows.flatMap (processRow outcome) := by
  constructor
  · have hopen : patchKubeResourcesFromCSV outcome (some content) =
        match readCSVRows content with
        | none => Except.error "failed to read CSV"
        | some rows2 => Except.ok (rows2.flatMap (processRow outcome)) := rfl
    rw [hopen, hread]
  · intro r hr hflag
    exact List.mem_flatMap.2 ⟨r, hr, hpa_mem_processRow outcome r hflag⟩

set_option maxRecDepth 16384 in
/-- Witness for C3: on the demo file, with *every* external command
failing, the flow still succeeds, having attempted the row's resource-set
invocation and then its HPA merge-patch (the strategy patch is skipped
because the resource-set step failed). -/
theorem patch_partial_failure_witness :
    patchKubeResourcesFromCSV (fun _ => false) (some demoCSV) =
      .ok [setResourcesCmd "prod" "api" "200m" "256Mi" "512Mi",
           patchHPACmd "api" "prod" 2 10 70 0 0] := by
  have h := (patch_partial_failure (fun _ => false) demoCSV
      [["1", "api", "prod", "3", "200m", "500m", "256Mi", "512Mi", "", "",
        "2", "10", "70", "N/A", "N/A", "true", "false"]] (by decide)).1
  rw [h]
  exact congrArg Except.ok (by decide)

/-- C10 (implicit): the numeric CSV fields are parsed with the error
discarded, so any value that is not a decimal integer — in particular the
exported `"N/A"` sentinel of an absent stabilization window — becomes `0`,
and the HPA merge-patch of such a row is issued with both
`stabilizationWindowSeconds` fields set to `0` rather than left unset or
the row rejected. -/
theorem numeric_parse_default_zero :
    goAtoi "N/A" = 0 ∧
    (∀ s : String, goParseInt s = none → goAtoi s = 0) ∧
    (∀ (outcome : Outcome) (r : List String),
      r.getD 13 "" = "N/A" → r.getD 14 "" = "N/A" →
      (goToLower (r.getD 15 "") = "true" ∨ goToLower (r.getD 16 "") = "true") →
      patchHPACmd (r.getD 1 "") (r.getD 2 "") (goAtoi (r.getD 10 ""))
          (goAtoi (r.getD 11 "")) (goAtoi (r.getD 12 "")) 0 0
        ∈ processRow outcome r) := by
  refine ⟨by decide, ?_, ?_⟩
  · intro s h
    unfold goAtoi
    rw [h]
  · intro outcome r h13 h14 hflag
    have hm := hpa_mem_processRow outcome r hflag
    rw [h13, h14] at hm
    rw [show goAtoi "N/A" = 0 from by decide] at hm
    exact hm

/-- Witness for C10 at the demo row (both windows `"N/A"`). -/
theorem numeric_parse_default_zero_witness :
    patchHPACmd (demoRowBoth.getD 1 "") (demoRowBoth.getD 2 "")
        (goAtoi (demoRowBoth.getD 10 "")) (goAtoi (demoRowBoth.getD 11 ""))
        (goAtoi (demoRowBoth.getD 12 "")) 0 0
      ∈ processRow (fun _ => false) demoRowBoth :=
  numeric_parse_default_zero.2.2 (fun _ => false) demoRowBoth
    (by decide) (by decide) (Or.inl (by decide))

/-! ## Interactive-shell theorems -/

/-- C7: a confirmation line whose upper-cased, trimmed value is not `"Y"`
ends the run with no effect at all — no menu, no file write, no cluster
invocation; exactly the inputs whose trimmed case-fold is `"Y"` reach the
menu. -/
theorem confirm_gate (w : World) (ci ai : String) :
    (¬goTrimSpace (goToUpper ci) = "Y" → runMain w ci ai = []) ∧
    (confirmPrompt ci = true ↔ goTrimSpace (goToUpper ci) = "Y") ∧
    (goTrimSpace (goToUpper ci) = "Y" →
      runMain w ci ai = Effect.menu :: dispatchAction w (goTrimSpace ai)) := by
  refine ⟨?_, ?_, ?_⟩
  · intro h
    have hb : confirmPrompt ci = false := by
      unfold confirmPrompt
      exact beq_eq_false_iff_ne.2 h
    simp [runMain, hb]
  · unfold confirmPrompt
    exact beq_iff_eq
  · intro h
    have hb : confirmPrompt ci = true := by
      unfold confirmPrompt
      exact beq_iff_eq.2 h
    simp [runMain, hb]

/-- Witness for C7: the answer `"n"` produces no effect. -/
theorem confirm_gate_witness : runMain demoWorld "n" "1" = [] :=
  (confirm_gate demoWorld "n" "1").1 (by decide)

/-- C8: the restart operation reachable from menu choice `"3"` always
executes the rollout-restart-all command; the argument vector of
`restartDeployment` does not depend on its deployment-name argument (the
per-name branch is commented out in the source), so the per-name restart
path is unreachable through the menu. -/
theorem restart_always_all (w : World) (nsp dname ci ai : String) :
    restartDeployment nsp dname =
      ["kubectl", "rollout", "restart", "deployment", "--all", "-n", nsp] ∧
    restartDeployment nsp dname = restartDeployment nsp "all" ∧
    (goTrimSpace (goToUpper ci) = "Y" → goTrimSpace ai = "3" →
      runMain w ci ai =
        [Effect.menu, Effect.exec (restartDeployment w.nsp "all")]) := by
  refine ⟨rfl, rfl, ?_⟩
  intro hc ha
  have hb : confirmPrompt ci = true := by
    unfold confirmPrompt
    exact beq_iff_eq.2 hc
  simp only [runMain, hb, Bool.not_true, Bool.false_eq_true, if_false, ha]
  rfl

/-- Witness for C8: a confirmed run choosing `" 3 "` restarts all. -/
theorem restart_always_all_witness :
    runMain demoWorld "y" " 3 " =
      [Effect.menu, Effect.exec (restartDeployment demoWorld.nsp "all")] :=
  (restart_always_all demoWorld "p" "web" "y" " 3 ").2.2 (by decide) (by decide)
